import Mathlib

/-
Verification of the entity-mapping core of the python-odata repository.

The development shallowly embeds odata/entity.py. Python values that can
appear in a raw wire mapping are modelled by the inductive type Value.
Dictionaries are modelled as association lists with Python dict semantics
given by alookup, aset and aremove. The companion object EntityState of
odata/state.py is not part of the provided sources, so its storage
interface is modelled from the specification where noted.
-/

/-- A Python value as it can appear in a raw data mapping: None, an
integer, a string, a list, or a nested object payload. -/
inductive Value where
  | vnull
  | vint (i : Int)
  | vstr (s : String)
  | vlist (xs : List Value)
  | vobj (fields : List (String × Value))

mutual

/-- Structural decidable equality on Value, mirroring the Python
operator == on these values. -/
def Value.decEq : (a b : Value) → Decidable (a = b)
  | .vnull, .vnull => isTrue rfl
  | .vint a, .vint b =>
      match Int.decEq a b with
      | isTrue h => isTrue (by rw [h])
      | isFalse h => isFalse (by intro hc; cases hc; exact h rfl)
  | .vstr a, .vstr b =>
      match String.decEq a b with
      | isTrue h => isTrue (by rw [h])
      | isFalse h => isFalse (by intro hc; cases hc; exact h rfl)
  | .vlist a, .vlist b =>
      match Value.decEqList a b with
      | isTrue h => isTrue (by rw [h])
      | isFalse h => isFalse (by intro hc; cases hc; exact h rfl)
  | .vobj a, .vobj b =>
      match Value.decEqObj a b with
      | isTrue h => isTrue (by rw [h])
      | isFalse h => isFalse (by intro hc; cases hc; exact h rfl)
  | .vnull, .vint _ => isFalse (by intro h; cases h)
  | .vnull, .vstr _ => isFalse (by intro h; cases h)
  | .vnull, .vlist _ => isFalse (by intro h; cases h)
  | .vnull, .vobj _ => isFalse (by intro h; cases h)
  | .vint _, .vnull => isFalse (by intro h; cases h)
  | .vint _, .vstr _ => isFalse (by intro h; cases h)
  | .vint _, .vlist _ => isFalse (by intro h; cases h)
  | .vint _, .vobj _ => isFalse (by intro h; cases h)
  | .vstr _, .vnull => isFalse (by intro h; cases h)
  | .vstr _, .vint _ => isFalse (by intro h; cases h)
  | .vstr _, .vlist _ => isFalse (by intro h; cases h)
  | .vstr _, .vobj _ => isFalse (by intro h; cases h)
  | .vlist _, .vnull => isFalse (by intro h; cases h)
  | .vlist _, .vint _ => isFalse (by intro h; cases h)
  | .vlist _, .vstr _ => isFalse (by intro h; cases h)
  | .vlist _, .vobj _ => isFalse (by intro h; cases h)
  | .vobj _, .vnull => isFalse (by intro h; cases h)
  | .vobj _, .vint _ => isFalse (by intro h; cases h)
  | .vobj _, .vstr _ => isFalse (by intro h; cases h)
  | .vobj _, .vlist _ => isFalse (by intro h; cases h)

def Value.decEqList : (a b : List Value) → Decidable (a = b)
  | [], [] => isTrue rfl
  | [], _ :: _ => isFalse (by intro h; cases h)
  | _ :: _, [] => isFalse (by intro h; cases h)
  | a :: as, b :: bs =>
      match Value.decEq a b, Value.decEqList as bs with
      | isTrue h1, isTrue h2 => isTrue (by rw [h1, h2])
      | isFalse h1, _ => isFalse (by intro hc; cases hc; exact h1 rfl)
      | _, isFalse h2 => isFalse (by intro hc; cases hc; exact h2 rfl)

def Value.decEqObj : (a b : List (String × Value)) → Decidable (a = b)
  | [], [] => isTrue rfl
  | [], _ :: _ => isFalse (by intro h; cases h)
  | _ :: _, [] => isFalse (by intro h; cases h)
  | (k1, v1) :: as, (k2, v2) :: bs =>
      match String.decEq k1 k2, Value.decEq v1 v2, Value.decEqObj as bs with
      | isTrue h0, isTrue h1, isTrue h2 => isTrue (by rw [h0, h1, h2])
      | isFalse h0, _, _ => isFalse (by intro hc; cases hc; exact h0 rfl)
      | _, isFalse h1, _ => isFalse (by intro hc; cases hc; exact h1 rfl)
      | _, _, isFalse h2 => isFalse (by intro hc; cases hc; exact h2 rfl)

end

instance : DecidableEq Value := Value.decEq

/-- Python truthiness of a Value: None, 0, the empty string, the empty
list and the empty object are falsy, everything else is truthy. This is
the truth test applied by the statements if my_id and if value in
entity.py. -/
def Value.truthy : Value → Bool
  | .vnull => false
  | .vint i => decide (i ≠ 0)
  | .vstr s => decide (s ≠ "")
  | .vlist xs => !xs.isEmpty
  | .vobj fs => !fs.isEmpty

/-- A raw data mapping as passed in the from_data keyword: a Python dict
from wire field names to values, modelled as an association list whose
lookup returns the first binding of a key. -/
abbrev RawData := List (String × Value)

/-- Dict lookup: the value bound to key k, if any. -/
def alookup {α : Type} : List (String × α) → String → Option α
  | [], _ => none
  | e :: rest, k => if e.1 = k then some e.2 else alookup rest k

/-- Dict assignment d[k] = v: replaces the binding in place when the key
is present, otherwise appends a new binding, as a Python dict does. -/
def aset {α : Type} : List (String × α) → String → α → List (String × α)
  | [], k, v => [(k, v)]
  | e :: rest, k, v => if e.1 = k then (k, v) :: rest else e :: aset rest k v

/-- Dict deletion, the removal effect of d.pop(k). -/
def aremove {α : Type} (m : List (String × α)) (k : String) : List (String × α) :=
  m.filter (fun e => e.1 != k)

/-- Python d.get(k), returning None when the key is absent. This is the
raw_data.get call of EntityBase.__new__. -/
def rawGet (m : RawData) (k : String) : Value :=
  (alookup m k).getD Value.vnull

/-- A declared value property descriptor, the external PropertyBase
collaborator interface: a wire field name, the primary_key flag and the
escape_value rendering routine used by the debug representation. -/
structure PropertyBase where
  name : String
  primary_key : Bool
  escape_value : Value → String

/-- A declared navigation property descriptor, the external
NavigationProperty collaborator interface: a wire field name, the
is_collection cardinality flag and the instances_from_data conversion. -/
structure NavigationProperty where
  name : String
  is_collection : Bool
  instances_from_data : Value → Value

/-- Class level metadata of an entity class: the class name, the odata
type and collection names, the service url base, and the declared value
and navigation properties in declaration order. These model the class
attributes of EntityBase together with the properties and
navigation_properties enumerations exposed through EntityState. -/
structure EntityClass where
  class_name : String
  odata_type : String
  odata_collection : String
  odata_url_base : String
  properties : List PropertyBase
  navigation_properties : List NavigationProperty

/-- A resolved navigation cache entry, the dict(single=...) or
dict(collection=...) wrapper stored into nav_cache by
EntityBase.__new__. -/
inductive NavEntry where
  | single (payload : Value)
  | collection (payload : Value)

/-- Modelled from the spec: the per instance EntityState companion of
odata/state.py, which is not among the provided sources. Per section 3
of the specification it holds the scalar field values, the set of dirty
field names and the navigation cache. -/
structure EntityState where
  values : List (String × Value)
  dirty : List String
  nav_cache : List (String × NavEntry)

/-- Modelled from the spec: a freshly created EntityState, with no
values, an empty dirty set and an empty navigation cache, as created by
EntityState(i) at the start of EntityBase.__new__. -/
def EntityState.start : EntityState :=
  { values := [], dirty := [], nav_cache := [] }

/-- Modelled from the spec: the dict style assignment on the state used
by hydration, the statement writing i.__odata__[prop.name]. Per section
4.1 step 4 of the specification a hydration write is a baseline write
and does not touch the dirty set. -/
def EntityState.setItem (es : EntityState) (k : String) (v : Value) : EntityState :=
  { es with values := aset es.values k v }

/-- Modelled from the spec: the dict style read self.__odata__[...] on
the state. After construction every declared wire name has an entry, so
the None default is only a totalization. -/
def EntityState.getItem (es : EntityState) (k : String) : Value :=
  (alookup es.values k).getD Value.vnull

/-- Modelled from the spec: the primary_key_property lookup exposed by
EntityState, locating the declared property descriptor marked
primary_key, or the sentinel none when no primary key is declared. -/
def EntityClass.primary_key_property (cls : EntityClass) : Option PropertyBase :=
  cls.properties.find? (fun prop => prop.primary_key)

/-- The navigation pass of EntityBase.__new__: for each navigation
property in declaration order, when the raw mapping contains its wire
name, pop the payload from the mapping, convert it through
instances_from_data, and store it into nav_cache wrapped per the
is_collection flag. The state and the leftover raw mapping are both
returned, the latter modelling the in place mutation of the caller
supplied dict. -/
def hydrateNav : List NavigationProperty → EntityState → RawData → EntityState × RawData
  | [], es, raw_data => (es, raw_data)
  | prop :: rest, es, raw_data =>
      match alookup raw_data prop.name with
      | some expanded_data =>
          let entry :=
            if prop.is_collection then
              NavEntry.collection (prop.instances_from_data expanded_data)
            else
              NavEntry.single (prop.instances_from_data expanded_data)
          hydrateNav rest { es with nav_cache := aset es.nav_cache prop.name entry }
            (aremove raw_data prop.name)
      | none => hydrateNav rest es raw_data

/-- The value pass of EntityBase.__new__ when raw data was given: for
each value property in declaration order, store
raw_data.get(prop.name) into the state. -/
def hydrateValues : List PropertyBase → RawData → EntityState → EntityState
  | [], _, es => es
  | prop :: rest, raw_data, es =>
      hydrateValues rest raw_data (es.setItem prop.name (rawGet raw_data prop.name))

/-- The value pass of EntityBase.__new__ when no raw data was given: for
each value property in declaration order, store None into the state. -/
def startValues : List PropertyBase → EntityState → EntityState
  | [], es => es
  | prop :: rest, es => startValues rest (es.setItem prop.name Value.vnull)

/-- EntityBase.__new__: allocate a fresh state, and either hydrate it
from the from_data mapping, first peeling embedded navigation payloads
and then reading the value properties from what remains, or initialize
every value property to None. -/
def entityNew (cls : EntityClass) (from_data : Option RawData) : EntityState :=
  match from_data with
  | some raw_data =>
      let sr := hydrateNav cls.navigation_properties EntityState.start raw_data
      hydrateValues cls.properties sr.2 sr.1
  | none => startValues cls.properties EntityState.start

/-- The content of the caller supplied raw mapping after
EntityBase.__new__ has run on it, reflecting the in place raw_data.pop
mutations of the navigation pass. -/
def hydratedRaw (cls : EntityClass) (raw_data : RawData) : RawData :=
  (hydrateNav cls.navigation_properties EntityState.start raw_data).2

/-- An entity instance: its class together with the companion state
reachable as self.__odata__. -/
structure Entity where
  cls : EntityClass
  odata : EntityState

/-- Modelled from the spec: the id accessor of EntityState, the value of
the declared primary key property, or None when no primary key is
declared. -/
def entityId (e : Entity) : Value :=
  match e.cls.primary_key_property with
  | some prop => e.odata.getItem prop.name
  | none => Value.vnull

/-- An arbitrary Python object handed to the comparison operator: either
another entity instance or any non entity value. -/
inductive PyObject where
  | entity (e : Entity)
  | other (v : Value)

/-- EntityBase.__eq__: when the other operand is an entity and the own
id is truthy, compare the two ids with the Python == operator, otherwise
return False. -/
def entityEq (self : Entity) (other : PyObject) : Bool :=
  match other with
  | .entity o =>
      if (entityId self).truthy then decide (entityId self = entityId o) else false
  | .other _ => false

/-- EntityBase.__repr__: when a primary key property is declared and its
value is truthy, render the class name with the escaped key value,
otherwise render the bare class name. -/
def entityRepr (self : Entity) : String :=
  match self.cls.primary_key_property with
  | some prop =>
      if (self.odata.getItem prop.name).truthy then
        "<Entity(" ++ self.cls.class_name ++ ":"
          ++ prop.escape_value (self.odata.getItem prop.name) ++ ")>"
      else "<Entity(" ++ self.cls.class_name ++ ")>"
  | none => "<Entity(" ++ self.cls.class_name ++ ")>"

/-- Splits a leading scheme from a url written over characters: the
characters before the first colon when that colon is directly followed
by two slashes. Helper for the urljoin model. -/
def splitSchemeChars : List Char → Option (List Char × List Char)
  | [] => none
  | c :: rest =>
    if c = ':' then
      match rest with
      | '/' :: '/' :: tail => some ([], tail)
      | _ => none
    else
      match splitSchemeChars rest with
      | some (s, r) => some (c :: s, r)
      | none => none

/-- Modelled from the spec: scheme detection of the standard library
urljoin collaborator, restricted to scheme://rest urls with a nonempty
alphabetic scheme. -/
def splitScheme (url : String) : Option (String × String) :=
  match splitSchemeChars url.toList with
  | some (s, r) =>
      if s ≠ [] ∧ s.all Char.isAlpha then some (String.mk s, String.mk r) else none
  | none => none

/-- Splits a character list at the first slash, into the part before it
and the remainder beginning with that slash. -/
def splitSlash : List Char → (List Char × List Char)
  | [] => ([], [])
  | c :: rest =>
    if c = '/' then ([], c :: rest)
    else
      let p := splitSlash rest
      (c :: p.1, p.2)

/-- The directory part of a path: everything up to and including the
last slash, empty when the path has no slash. -/
def dirChars (path : List Char) : List Char :=
  (path.reverse.dropWhile (fun c => c != '/')).reverse

/-- Modelled from the spec: the standard hierarchical url join
collaborator, the urljoin function of the Python standard library as
used by EntityBase.__odata_url__, covering absolute references,
network path references, absolute path references and relative path
merging. Dot segment normalization and query or fragment handling are
outside the joined shapes this core produces. -/
def urljoin (base url : String) : String :=
  if url = "" then base
  else
    match splitScheme url with
    | some _ => url
    | none =>
      match splitScheme base with
      | none => url
      | some (scheme, rest) =>
        match url.toList with
        | '/' :: '/' :: _ => scheme ++ ":" ++ url
        | '/' :: _ =>
            scheme ++ "://" ++ String.mk (splitSlash rest.toList).1 ++ url
        | rl =>
            let p := splitSlash rest.toList
            let d := dirChars p.2
            scheme ++ "://" ++ String.mk p.1
              ++ String.mk (if d = [] then '/' :: rl else d ++ rl)

/-- EntityBase.__odata_url__: join the class level url base with the
collection name. -/
def odata_url (cls : EntityClass) : String :=
  urljoin cls.odata_url_base cls.odata_collection

/-- The equality rule exactly as the specification words it, for
comparison with the embedded entityEq: the operands are equal when the
other is an entity, both primary key values are non null, and the two
values are equal. -/
def specClaimedEq (self : Entity) (other : PyObject) : Prop :=
  match other with
  | .entity o =>
      entityId self ≠ Value.vnull ∧ entityId o ≠ Value.vnull
        ∧ entityId self = entityId o
  | .other _ => False

/-- A sample escape_value collaborator rendering integers and strings
plainly, standing for the per type escaping of the property classes. -/
def sampleEscape : Value → String
  | .vint i => toString i
  | .vstr s => s
  | _ => ""

/-- Sample integer primary key property with wire name Id. -/
def IdProp : PropertyBase :=
  { name := "Id", primary_key := true, escape_value := sampleEscape }

/-- Sample plain value property with wire name ProductName. -/
def NameProp : PropertyBase :=
  { name := "ProductName", primary_key := false, escape_value := sampleEscape }

/-- Sample single cardinality navigation property with wire name
Manufacturer, converting payloads with the identity collaborator. -/
def ManufacturerProp : NavigationProperty :=
  { name := "Manufacturer", is_collection := false, instances_from_data := fun v => v }

/-- Sample collection cardinality navigation property with wire name
Parts, converting payloads with the identity collaborator. -/
def PartsProp : NavigationProperty :=
  { name := "Parts", is_collection := true, instances_from_data := fun v => v }

/-- The Product sample entity class of the module documentation. -/
def ProductClass : EntityClass :=
  { class_name := "Product"
  , odata_type := "ProductDataService.Objects.Product"
  , odata_collection := "Products"
  , odata_url_base := "https://svc/"
  , properties := [IdProp, NameProp]
  , navigation_properties := [ManufacturerProp, PartsProp] }

/-- A raw mapping with a scalar field, an embedded single navigation
payload, an embedded collection navigation payload and an undeclared
extra field. -/
def productRaw : RawData :=
  [ ("Id", Value.vint 7)
  , ("Manufacturer", Value.vobj [("Id", Value.vint 3)])
  , ("Parts", Value.vlist [Value.vobj [("Id", Value.vint 21)], Value.vobj [("Id", Value.vint 22)]])
  , ("Extra", Value.vstr "ignored") ]

/-- A Product hydrated with primary key 7. -/
def product7 : Entity :=
  { cls := ProductClass
  , odata := entityNew ProductClass (some [("Id", Value.vint 7), ("ProductName", Value.vstr "Kettle")]) }

/-- A Product hydrated with the falsy but non null primary key 0. -/
def product0 : Entity :=
  { cls := ProductClass
  , odata := entityNew ProductClass (some [("Id", Value.vint 0), ("ProductName", Value.vstr "Kettle")]) }

/-- A Product constructed with no raw data, carrying no key. -/
def productFresh : Entity :=
  { cls := ProductClass, odata := entityNew ProductClass none }

/-- Looking a key up after a dict assignment: the assigned key reads the
new value, every other key is unaffected. -/
theorem alookup_aset {α : Type} (m : List (String × α)) (k k2 : String) (v : α) :
    alookup (aset m k v) k2 = if k2 = k then some v else alookup m k2 := by
  induction m with
  | nil =>
      by_cases h : k2 = k
      · subst h; simp [aset, alookup]
      · have h2 : ¬k = k2 := fun hc => h hc.symm
        simp [aset, alookup, h, h2]
  | cons e rest ih =>
      by_cases he : e.1 = k
      · by_cases h2 : k2 = k
        · subst h2; simp [aset, alookup, he]
        · have h3 : ¬k = k2 := fun hc => h2 hc.symm
          have h4 : ¬e.1 = k2 := by rw [he]; exact h3
          simp [aset, alookup, he, h2, h3, h4]
      · by_cases h2 : e.1 = k2
        · have h3 : ¬k2 = k := fun hc => he (h2.trans hc)
          simp [aset, alookup, he, h2, h3]
        · simp [aset, alookup, he, h2, ih]

/-- Looking a key up after a dict deletion: the removed key reads
nothing, every other key is unaffected. -/
theorem alookup_aremove {α : Type} (m : List (String × α)) (k k2 : String) :
    alookup (aremove m k) k2 = if k2 = k then none else alookup m k2 := by
  induction m with
  | nil => by_cases h : k2 = k <;> simp [aremove, alookup, h]
  | cons e rest ih =>
      by_cases he : e.1 = k
      · have hstep : aremove (e :: rest) k = aremove rest k := by
          simp [aremove, List.filter_cons, he]
        rw [hstep, ih]
        by_cases h2 : k2 = k
        · simp [h2]
        · have h4 : ¬e.1 = k2 := by rw [he]; exact fun hc => h2 hc.symm
          simp [h2, alookup, h4]
      · have hstep : aremove (e :: rest) k = e :: aremove rest k := by
          simp [aremove, List.filter_cons, bne_iff_ne, he]
        rw [hstep]
        by_cases h2 : e.1 = k2
        · have h3 : ¬k2 = k := fun hc => he (h2.trans hc)
          simp [alookup, h2, h3]
        · simp [alookup, h2, ih]

/-- The value pass writes exactly the declared wire names: a declared
name reads the raw mapping with a None default, any other key is left
as it was in the incoming state. -/
theorem hydrateValues_values (ps : List PropertyBase) (raw_data : RawData)
    (es : EntityState) (k : String) :
    alookup (hydrateValues ps raw_data es).values k =
      if ps.any (fun p => p.name == k) then some (rawGet raw_data k)
      else alookup es.values k := by
  induction ps generalizing es with
  | nil => simp [hydrateValues]
  | cons p rest ih =>
      by_cases h2 : p.name = k
      · subst h2
        by_cases h1 : rest.any (fun q => q.name == p.name) <;>
          simp [hydrateValues, ih, EntityState.setItem, alookup_aset, h1]
      · have h3 : ¬k = p.name := fun hc => h2 hc.symm
        by_cases h1 : rest.any (fun q => q.name == k) <;>
          simp [hydrateValues, ih, EntityState.setItem, alookup_aset, h1, h2, h3]

/-- The value pass never touches the dirty set. -/
theorem hydrateValues_dirty (ps : List PropertyBase) (raw_data : RawData) (es : EntityState) :
    (hydrateValues ps raw_data es).dirty = es.dirty := by
  induction ps generalizing es with
  | nil => rfl
  | cons p rest ih => simp [hydrateValues, ih, EntityState.setItem]

/-- The value pass never touches the navigation cache. -/
theorem hydrateValues_nav_cache (ps : List PropertyBase) (raw_data : RawData) (es : EntityState) :
    (hydrateValues ps raw_data es).nav_cache = es.nav_cache := by
  induction ps generalizing es with
  | nil => rfl
  | cons p rest ih => simp [hydrateValues, ih, EntityState.setItem]

/-- The no data pass writes exactly the declared wire names, all to
None, and leaves other keys as in the incoming state. -/
theorem startValues_values (ps : List PropertyBase) (es : EntityState) (k : String) :
    alookup (startValues ps es).values k =
      if ps.any (fun p => p.name == k) then some Value.vnull
      else alookup es.values k := by
  induction ps generalizing es with
  | nil => simp [startValues]
  | cons p rest ih =>
      by_cases h2 : p.name = k
      · subst h2
        by_cases h1 : rest.any (fun q => q.name == p.name) <;>
          simp [startValues, ih, EntityState.setItem, alookup_aset, h1]
      · have h3 : ¬k = p.name := fun hc => h2 hc.symm
        by_cases h1 : rest.any (fun q => q.name == k) <;>
          simp [startValues, ih, EntityState.setItem, alookup_aset, h1, h2, h3]

/-- The no data pass never touches the dirty set. -/
theorem startValues_dirty (ps : List PropertyBase) (es : EntityState) :
    (startValues ps es).dirty = es.dirty := by
  induction ps generalizing es with
  | nil => rfl
  | cons p rest ih => simp [startValues, ih, EntityState.setItem]

/-- The no data pass never touches the navigation cache. -/
theorem startValues_nav_cache (ps : List PropertyBase) (es : EntityState) :
    (startValues ps es).nav_cache = es.nav_cache := by
  induction ps generalizing es with
  | nil => rfl
  | cons p rest ih => simp [startValues, ih, EntityState.setItem]

/-- The navigation pass never touches the dirty set. -/
theorem hydrateNav_dirty (ps : List NavigationProperty) (es : EntityState) (raw_data : RawData) :
    (hydrateNav ps es raw_data).1.dirty = es.dirty := by
  induction ps generalizing es raw_data with
  | nil => rfl
  | cons p rest ih =>
      cases h : alookup raw_data p.name <;> simp [hydrateNav, h, ih]

/-- The navigation pass never touches the scalar values. -/
theorem hydrateNav_values (ps : List NavigationProperty) (es : EntityState) (raw_data : RawData) :
    (hydrateNav ps es raw_data).1.values = es.values := by
  induction ps generalizing es raw_data with
  | nil => rfl
  | cons p rest ih =>
      cases h : alookup raw_data p.name <;> simp [hydrateNav, h, ih]

/-- After the navigation pass, every navigation wire name is gone from
the raw mapping and every other key reads as before. -/
theorem hydrateNav_raw_alookup (ps : List NavigationProperty) (es : EntityState)
    (raw_data : RawData) (k : String) :
    alookup (hydrateNav ps es raw_data).2 k =
      if ps.any (fun p => p.name == k) then none else alookup raw_data k := by
  induction ps generalizing es raw_data with
  | nil => simp [hydrateNav]
  | cons p rest ih =>
      cases hv : alookup raw_data p.name with
      | some v =>
          by_cases h2 : p.name = k
          · subst h2
            by_cases h1 : rest.any (fun q => q.name == p.name) <;>
              simp [hydrateNav, hv, ih, alookup_aremove, h1]
          · have h3 : ¬k = p.name := fun hc => h2 hc.symm
            by_cases h1 : rest.any (fun q => q.name == k) <;>
              simp [hydrateNav, hv, ih, alookup_aremove, h1, h2, h3]
      | none =>
          by_cases h2 : p.name = k
          · subst h2
            by_cases h1 : rest.any (fun q => q.name == p.name) <;>
              simp [hydrateNav, hv, ih, h1]
          · by_cases h1 : rest.any (fun q => q.name == k) <;>
              simp [hydrateNav, hv, ih, h1, h2]

/-- The navigation pass leaves the raw mapping exactly filtered: the
bindings whose key is not a declared navigation wire name survive, in
order, and the rest are deleted. -/
theorem hydrateNav_raw_filter (ps : List NavigationProperty) (es : EntityState)
    (raw_data : RawData) :
    (hydrateNav ps es raw_data).2 =
      raw_data.filter (fun e => !(ps.any (fun p => p.name == e.1))) := by
  induction ps generalizing es raw_data with
  | nil => simp [hydrateNav]
  | cons p rest ih =>
      cases hv : alookup raw_data p.name with
      | some v =>
          rw [hydrateNav, hv]
          simp only []
          rw [ih]
          rw [aremove, List.filter_filter]
          apply List.filter_congr
          intro e _
          by_cases h1 : p.name = e.1
          · simp [h1]
          · have h3 : ¬e.1 = p.name := fun hc => h1 hc.symm
            have hb1 : (p.name == e.1) = false := beq_eq_false_iff_ne.mpr h1
            have hb2 : (e.1 != p.name) = true := bne_iff_ne.mpr h3
            simp [hb1, hb2]
      | none =>
          rw [hydrateNav, hv, ih]
          apply List.filter_congr
          intro e he
          have hne : ¬e.1 = p.name := by
            intro hc
            have : alookup raw_data e.1 ≠ none := by
              clear hv
              induction raw_data with
              | nil => cases he
              | cons b rest2 ih2 =>
                  cases he with
                  | head => simp [alookup]
                  | tail _ hmem =>
                      by_cases hb : b.1 = e.1 <;> simp [alookup, hb, ih2 hmem]
            rw [hc] at this
            exact this hv
          have hne2 : ¬p.name = e.1 := fun hc => hne hc.symm
          simp [hne2]

/-- Navigation cache entries for names outside the processed navigation
properties are untouched by the navigation pass. -/
theorem hydrateNav_cache_out (ps : List NavigationProperty) (es : EntityState)
    (raw_data : RawData) (k : String)
    (h : ps.any (fun p => p.name == k) = false) :
    alookup (hydrateNav ps es raw_data).1.nav_cache k = alookup es.nav_cache k := by
  induction ps generalizing es raw_data with
  | nil => simp [hydrateNav]
  | cons p rest ih =>
      simp only [List.any_cons, Bool.or_eq_false_iff] at h
      have hpk : ¬k = p.name := by
        intro hc
        subst hc
        simp at h
      cases hv : alookup raw_data p.name with
      | some v =>
          rw [hydrateNav, hv]
          simp only []
          rw [ih _ _ h.2]
          simp [alookup_aset, hpk]
      | none =>
          rw [hydrateNav, hv]
          exact ih _ _ h.2

/-- When the raw mapping holds an embedded payload for a declared
navigation property with a distinct wire name, the navigation pass
stores its converted payload under that name, wrapped per the
is_collection flag. -/
theorem hydrateNav_cache_present (ps : List NavigationProperty) (es : EntityState)
    (raw_data : RawData) (prop : NavigationProperty) (v : Value)
    (hmem : prop ∈ ps) (hnd : (ps.map NavigationProperty.name).Nodup)
    (hv : alookup raw_data prop.name = some v) :
    alookup (hydrateNav ps es raw_data).1.nav_cache prop.name =
      some (if prop.is_collection then NavEntry.collection (prop.instances_from_data v)
            else NavEntry.single (prop.instances_from_data v)) := by
  induction ps generalizing es raw_data with
  | nil => cases hmem
  | cons p rest ih =>
      rw [List.map_cons, List.nodup_cons] at hnd
      have hout : ∀ q, q ∈ rest → ¬q.name = p.name := by
        intro q hq hc
        exact hnd.1 (hc ▸ List.mem_map_of_mem NavigationProperty.name hq)
      cases hmem with
      | head =>
          rw [hydrateNav, hv]
          simp only []
          have hany : rest.any (fun q => q.name == prop.name) = false := by
            rw [List.any_eq_false]
            intro q hq
            simp [hout q hq]
          rw [hydrateNav_cache_out rest _ _ _ hany]
          simp [alookup_aset]
      | tail _ hmem2 =>
          have hne : ¬prop.name = p.name := hout prop hmem2
          cases hp : alookup raw_data p.name with
          | some w =>
              rw [hydrateNav, hp]
              simp only []
              have hv2 : alookup (aremove raw_data p.name) prop.name = some v := by
                rw [alookup_aremove]
                simp [hne, hv]
              exact ih _ _ hmem2 hnd.2 hv2
          | none =>
              rw [hydrateNav, hp]
              exact ih _ _ hmem2 hnd.2 hv

/-- When the raw mapping holds no payload for a declared navigation
property with a distinct wire name, the navigation pass leaves the
cache entry of that name as it was. -/
theorem hydrateNav_cache_absent (ps : List NavigationProperty) (es : EntityState)
    (raw_data : RawData) (prop : NavigationProperty)
    (hmem : prop ∈ ps) (hnd : (ps.map NavigationProperty.name).Nodup)
    (hv : alookup raw_data prop.name = none) :
    alookup (hydrateNav ps es raw_data).1.nav_cache prop.name =
      alookup es.nav_cache prop.name := by
  induction ps generalizing es raw_data with
  | nil => cases hmem
  | cons p rest ih =>
      rw [List.map_cons, List.nodup_cons] at hnd
      have hout : ∀ q, q ∈ rest → ¬q.name = p.name := by
        intro q hq hc
        exact hnd.1 (hc ▸ List.mem_map_of_mem NavigationProperty.name hq)
      cases hmem with
      | head =>
          have hany : rest.any (fun q => q.name == prop.name) = false := by
            rw [List.any_eq_false]
            intro q hq
            simp [hout q hq]
          rw [hydrateNav, hv]
          exact hydrateNav_cache_out rest _ _ _ hany
      | tail _ hmem2 =>
          have hne : ¬prop.name = p.name := hout prop hmem2
          cases hp : alookup raw_data p.name with
          | some w =>
              rw [hydrateNav, hp]
              simp only []
              have hv2 : alookup (aremove raw_data p.name) prop.name = none := by
                rw [alookup_aremove]
                simp [hne, hv]
              rw [ih _ _ hmem2 hnd.2 hv2]
              simp [alookup_aset, hne]
          | none =>
              rw [hydrateNav, hp]
              exact ih _ _ hmem2 hnd.2 hv

/-- C1, counterexample: the stated equality rule fails on the code. The
instance product0 carries the non null primary key value 0, so under the
claim it should compare equal to itself, yet the comparison returns
False because the code tests the key for truthiness, not for being non
null. -/
theorem C1_counterexample :
    specClaimedEq product0 (PyObject.entity product0)
    ∧ entityEq product0 (PyObject.entity product0) = false := by
  refine ⟨⟨by decide, by decide, rfl⟩, by decide⟩

/-- C1, amended: comparison of a with b returns True exactly when b is
an entity instance, the primary key value of a is truthy under the
Python truth test, and the two primary key values are equal; comparison
with a non entity value returns False and never raises. -/
theorem C1_spec_amended (a : Entity) (b : PyObject) :
    entityEq a b = true ↔
      ∃ o, b = PyObject.entity o ∧ (entityId a).truthy = true
        ∧ entityId a = entityId o := by
  cases b with
  | entity o =>
      by_cases h : (entityId a).truthy
      · simp [entityEq, h]
      · simp [entityEq, h]
  | other v => simp [entityEq]

/-- C2: each declared value property reads its wire name out of the
navigation stripped raw mapping with a None default; hence a declared
field not shadowed by a navigation name stores exactly the raw value, a
field whose wire name was an embedded navigation payload stores None,
and a missing declared field stores None rather than failing. -/
theorem C2_spec (cls : EntityClass) (raw_data : RawData) (prop : PropertyBase)
    (hmem : prop ∈ cls.properties) :
    alookup (entityNew cls (some raw_data)).values prop.name
        = some (rawGet (hydratedRaw cls raw_data) prop.name)
    ∧ (cls.navigation_properties.any (fun np => np.name == prop.name) = false →
        alookup (entityNew cls (some raw_data)).values prop.name
          = some (rawGet raw_data prop.name))
    ∧ (cls.navigation_properties.any (fun np => np.name == prop.name) = true →
        alookup (entityNew cls (some raw_data)).values prop.name = some Value.vnull)
    ∧ (alookup raw_data prop.name = none →
        alookup (entityNew cls (some raw_data)).values prop.name = some Value.vnull) := by
  have hany : cls.properties.any (fun p => p.name == prop.name) = true := by
    rw [List.any_eq_true]
    exact ⟨prop, hmem, by simp⟩
  have hmain : alookup (entityNew cls (some raw_data)).values prop.name
      = some (rawGet (hydratedRaw cls raw_data) prop.name) := by
    show alookup (hydrateValues _ _ _).values prop.name = _
    rw [hydrateValues_values, hany]
    simp [hydratedRaw]
  have hraw : ∀ k, alookup (hydratedRaw cls raw_data) k =
      if cls.navigation_properties.any (fun np => np.name == k) then none
      else alookup raw_data k :=
    fun k => hydrateNav_raw_alookup _ _ _ _
  refine ⟨hmain, ?_, ?_, ?_⟩
  · intro h
    rw [hmain, rawGet, hraw, h]
    simp [rawGet]
  · intro h
    rw [hmain, rawGet, hraw, h]
    rfl
  · intro h
    rw [hmain, rawGet, hraw]
    by_cases hn : cls.navigation_properties.any (fun np => np.name == prop.name) <;>
      simp [hn, h]

/-- C2 witness at the Product sample: the declared field Id stores the
raw value 7 and the declared but missing field ProductName stores
None. -/
theorem C2_witness :
    alookup (entityNew ProductClass (some productRaw)).values "Id" = some (Value.vint 7)
    ∧ alookup (entityNew ProductClass (some productRaw)).values "ProductName"
        = some Value.vnull := by
  constructor
  · have h := (C2_spec ProductClass productRaw IdProp (List.mem_cons_self _ _)).2.1
      (by decide)
    exact h.trans (by decide)
  · have h := (C2_spec ProductClass productRaw NameProp
      (List.mem_cons_of_mem _ (List.mem_cons_self _ _))).2.2.2 (by decide)
    exact h

/-- C3: an embedded payload for a declared navigation property is popped
from the mapping, converted through instances_from_data and cached
wrapped as collection or single per the is_collection flag, the
converted payload stored verbatim so element order is preserved; with no
embedded payload the cache has no entry for the property. -/
theorem C3_spec (cls : EntityClass) (raw_data : RawData) (prop : NavigationProperty)
    (hmem : prop ∈ cls.navigation_properties)
    (hnd : (cls.navigation_properties.map NavigationProperty.name).Nodup) :
    (∀ v, alookup raw_data prop.name = some v →
        alookup (entityNew cls (some raw_data)).nav_cache prop.name =
          some (if prop.is_collection then NavEntry.collection (prop.instances_from_data v)
                else NavEntry.single (prop.instances_from_data v)))
    ∧ (alookup raw_data prop.name = none →
        alookup (entityNew cls (some raw_data)).nav_cache prop.name = none) := by
  have hrw : (entityNew cls (some raw_data)).nav_cache
      = (hydrateNav cls.navigation_properties EntityState.start raw_data).1.nav_cache := by
    show (hydrateValues _ _ _).nav_cache = _
    exact hydrateValues_nav_cache _ _ _
  constructor
  · intro v hv
    rw [hrw]
    exact hydrateNav_cache_present _ _ _ _ _ hmem hnd hv
  · intro hv
    rw [hrw, hydrateNav_cache_absent _ _ _ _ hmem hnd hv]
    rfl

/-- C3 witness at the Product sample: the list payload of Parts caches
as a collection entry in order, the object payload of Manufacturer
caches as a single entry, and without an embedded payload the Parts
entry is absent. -/
theorem C3_witness :
    alookup (entityNew ProductClass (some productRaw)).nav_cache "Parts"
      = some (NavEntry.collection
          (Value.vlist [Value.vobj [("Id", Value.vint 21)], Value.vobj [("Id", Value.vint 22)]]))
    ∧ alookup (entityNew ProductClass (some productRaw)).nav_cache "Manufacturer"
      = some (NavEntry.single (Value.vobj [("Id", Value.vint 3)]))
    ∧ alookup (entityNew ProductClass (some [("Id", Value.vint 7)])).nav_cache "Parts"
      = none := by
  refine ⟨?_, ?_, ?_⟩
  · exact (C3_spec ProductClass productRaw PartsProp
      (List.mem_cons_of_mem _ (List.mem_cons_self _ _)) (by decide)).1
      (Value.vlist [Value.vobj [("Id", Value.vint 21)], Value.vobj [("Id", Value.vint 22)]])
      (by decide)
  · exact (C3_spec ProductClass productRaw ManufacturerProp
      (List.mem_cons_self _ _) (by decide)).1 (Value.vobj [("Id", Value.vint 3)]) (by decide)
  · exact (C3_spec ProductClass [("Id", Value.vint 7)] PartsProp
      (List.mem_cons_of_mem _ (List.mem_cons_self _ _)) (by decide)).2 (by decide)

/-- C4: hydration from raw data marks nothing dirty, for every class and
every raw mapping the dirty set right after construction is empty. -/
theorem C4_spec (cls : EntityClass) (raw_data : RawData) :
    (entityNew cls (some raw_data)).dirty = [] := by
  show (hydrateValues _ _ _).dirty = []
  rw [hydrateValues_dirty, hydrateNav_dirty]
  rfl

/-- C5: construction with no raw data stores None for every declared
value property and leaves both the navigation cache and the dirty set
empty. -/
theorem C5_spec (cls : EntityClass) (prop : PropertyBase)
    (hmem : prop ∈ cls.properties) :
    alookup (entityNew cls none).values prop.name = some Value.vnull
    ∧ (entityNew cls none).nav_cache = []
    ∧ (entityNew cls none).dirty = [] := by
  have hany : cls.properties.any (fun p => p.name == prop.name) = true := by
    rw [List.any_eq_true]
    exact ⟨prop, hmem, by simp⟩
  refine ⟨?_, ?_, ?_⟩
  · show alookup (startValues _ _).values prop.name = _
    rw [startValues_values, hany]
    rfl
  · show (startValues _ _).nav_cache = []
    rw [startValues_nav_cache]
    rfl
  · show (startValues _ _).dirty = []
    rw [startValues_dirty]
    rfl

/-- C5 witness at the Product sample constructed without raw data. -/
theorem C5_witness :
    alookup (entityNew ProductClass none).values "Id" = some Value.vnull
    ∧ (entityNew ProductClass none).nav_cache = []
    ∧ (entityNew ProductClass none).dirty = [] := by
  have h := C5_spec ProductClass IdProp (List.mem_cons_self _ _)
  exact ⟨h.1, h.2.1, h.2.2⟩

/-- C6, counterexample: the stated rendering fails on the code in two
ways. The keyed Product renders with surrounding angle brackets, not as
the bare Entity(Product:7); and product0 holds the non null key 0 yet
renders with no key segment, because the code tests the key value for
truthiness, not for being non null. -/
theorem C6_counterexample :
    entityRepr product7 ≠ "Entity(Product:7)"
    ∧ entityRepr product7 = "<Entity(Product:7)>"
    ∧ entityId product0 ≠ Value.vnull
    ∧ entityRepr product0 = "<Entity(Product)>" := by
  refine ⟨by decide, by decide, by decide, by decide⟩

/-- C6, amended: the debug representation renders with surrounding angle
brackets, with a key segment exactly when the primary key value is
truthy under the Python truth test: with a declared primary key holding
a truthy value it renders the class name and the escaped key value, and
with a falsy or null key value, or no declared primary key, it renders
the bare class name. -/
theorem C6_spec_amended (a : Entity) :
    (∀ prop, a.cls.primary_key_property = some prop →
        (a.odata.getItem prop.name).truthy = true →
        entityRepr a
          = "<Entity(" ++ a.cls.class_name ++ ":"
              ++ prop.escape_value (a.odata.getItem prop.name) ++ ")>")
    ∧ ((entityId a).truthy = false →
        entityRepr a = "<Entity(" ++ a.cls.class_name ++ ")>") := by
  constructor
  · intro prop hp ht
    simp [entityRepr, hp, ht]
  · intro ht
    cases hp : a.cls.primary_key_property with
    | some prop =>
        have hv : (a.odata.getItem prop.name).truthy = false := by
          simpa [entityId, hp] using ht
        simp [entityRepr, hp, hv]
    | none => simp [entityRepr, hp]

/-- C6 witness: the hydrated Product with key 7 renders with the escaped
key and the fresh Product with no key renders bare. -/
theorem C6_witness :
    entityRepr product7 = "<Entity(Product:7)>"
    ∧ entityRepr productFresh = "<Entity(Product)>" := by
  constructor
  · exact ((C6_spec_amended product7).1 IdProp rfl (by decide)).trans (by decide)
  · exact ((C6_spec_amended productFresh).2 (by decide)).trans (by decide)

/-- C7: the url resolver is the pure join of the class url base and
collection name; joining the base https://svc/ with Products yields
https://svc/Products, and a collection name carrying its own scheme
overrides the base entirely. -/
theorem C7_spec :
    (∀ cls : EntityClass, odata_url cls = urljoin cls.odata_url_base cls.odata_collection)
    ∧ urljoin "https://svc/" "Products" = "https://svc/Products"
    ∧ (∀ base url s r, splitScheme url = some (s, r) → urljoin base url = url) := by
  refine ⟨fun _ => rfl, by decide, ?_⟩
  intro base url s r h
  have hne : ¬url = "" := by
    intro he
    rw [he, show splitScheme "" = none from by decide] at h
    cases h
  simp only [urljoin, if_neg hne, h]

/-- C7 witness: an absolute collection name overrides the base. -/
theorem C7_witness : urljoin "https://svc/" "http://other/X" = "http://other/X" :=
  C7_spec.2.2 "https://svc/" "http://other/X" "http" "other/X" (by decide)

/-- C8: equality is not reflexive for unkeyed instances; an entity whose
primary key value is null, including one whose class declares no primary
key, compares not equal even to itself, with no identity short
circuit. -/
theorem C8_spec (e : Entity) (h : entityId e = Value.vnull) :
    entityEq e (PyObject.entity e) = false := by
  simp [entityEq, h, Value.truthy]

/-- C8 witness: the fresh Product carries a null key and does not equal
itself. -/
theorem C8_witness :
    entityId productFresh = Value.vnull
    ∧ entityEq productFresh (PyObject.entity productFresh) = false :=
  ⟨by decide, C8_spec productFresh (by decide)⟩

/-- C9: a falsy but non null primary key value is treated as if no key
were set; such an instance compares not equal against every operand and
its debug representation omits the key segment. -/
theorem C9_spec (e : Entity) (b : PyObject)
    (_hnn : entityId e ≠ Value.vnull) (hf : (entityId e).truthy = false) :
    entityEq e b = false
    ∧ entityRepr e = "<Entity(" ++ e.cls.class_name ++ ")>" := by
  constructor
  · cases b with
    | entity o => simp [entityEq, hf]
    | other v => rfl
  · cases hp : e.cls.primary_key_property with
    | some prop =>
        have hv : (e.odata.getItem prop.name).truthy = false := by
          simpa [entityId, hp] using hf
        simp [entityRepr, hp, hv]
    | none => simp [entityRepr, hp]

/-- C9 witness: product0 holds the non null falsy key 0, fails to equal
the key 7 Product, and renders with no key segment. -/
theorem C9_witness :
    entityId product0 = Value.vint 0
    ∧ entityEq product0 (PyObject.entity product7) = false
    ∧ entityRepr product0 = "<Entity(Product)>" := by
  have h := C9_spec product0 (PyObject.entity product7) (by decide) (by decide)
  exact ⟨by decide, h.1, h.2.trans (by decide)⟩

/-- C10: construction from a raw mapping mutates the caller supplied
mapping in place; afterwards the mapping is exactly its old content with
every binding keyed by a navigation wire name deleted, other bindings
surviving unchanged and in order, so every navigation wire name reads as
absent and every other key reads its old value. -/
theorem C10_spec (cls : EntityClass) (raw_data : RawData) :
    hydratedRaw cls raw_data
      = raw_data.filter
          (fun e => !(cls.navigation_properties.any (fun np => np.name == e.1)))
    ∧ (∀ k, cls.navigation_properties.any (fun np => np.name == k) = true →
        alookup (hydratedRaw cls raw_data) k = none)
    ∧ (∀ k, cls.navigation_properties.any (fun np => np.name == k) = false →
        alookup (hydratedRaw cls raw_data) k = alookup raw_data k) := by
  refine ⟨hydrateNav_raw_filter _ _ _, ?_, ?_⟩
  · intro k hk
    show alookup (hydrateNav _ _ _).2 k = none
    rw [hydrateNav_raw_alookup, hk]
    rfl
  · intro k hk
    show alookup (hydrateNav _ _ _).2 k = alookup raw_data k
    rw [hydrateNav_raw_alookup, hk]
    rfl

/-- C10 witness: hydrating the Product sample from productRaw leaves the
caller mapping holding exactly the Id and Extra bindings, with the
embedded Manufacturer payload deleted. -/
theorem C10_witness :
    hydratedRaw ProductClass productRaw
      = [("Id", Value.vint 7), ("Extra", Value.vstr "ignored")]
    ∧ alookup (hydratedRaw ProductClass productRaw) "Manufacturer" = none := by
  constructor
  · exact (C10_spec ProductClass productRaw).1.trans (by decide)
  · exact (C10_spec ProductClass productRaw).2.1 "Manufacturer" (by decide)
